import Mathlib

/-!
Verification development for the atropos core: a shallow embedding of
`atropos/align.py` (Match records, `compare_suffixes`, `InsertAligner`)
and of the relevant parts of `atropos/commands/trim.py` (the
order-preserving writer result handler and the parallel runner checks),
with theorems settling the specified properties.

Collaborators that live outside the embedded sources (the Cython
`_align` module's `compare_prefixes` and `Aligner.locate`, and
`atropos.util`'s `reverse_complement` and `RandomMatchProbability`) are
modelled from the specification; each such definition is marked
`Modelled from the spec:` in its doc comment.

Python floats are modelled as exact rationals; machine integers are
modelled as `Nat` (all quantities involved are non-negative, and every
subtraction performed by the embedded code paths is on values where the
Python result is non-negative as well, as established in the theorems).
-/

namespace Atropos

/-- DNA bases handled by the aligners (the wildcard base is `N`). -/
inductive Base
  | A
  | C
  | G
  | T
  | N
deriving DecidableEq

/-- Modelled from the spec: Watson-Crick complement used by
`atropos.util.reverse_complement` (module not under src/). -/
def complementBase : Base → Base
  | .A => .T
  | .T => .A
  | .C => .G
  | .G => .C
  | .N => .N

/-- Modelled from the spec: `atropos.util.reverse_complement`
(module not under src/): complement every base and reverse. -/
def reverseComplement (s : List Base) : List Base :=
  (s.map complementBase).reverse

/-- Six-tuple returned by the no-indel comparators and by the
semi-global aligner: `(rstart, rstop, qstart, qstop, matches, errors)`. -/
structure AlnSix where
  s1start : Nat
  s1stop : Nat
  s2start : Nat
  s2stop : Nat
  nMatches : Nat
  errors : Nat
deriving DecidableEq

/-- Modelled from the spec: position-wise match test of §4.B.  A position
counts as a match when the bases are equal, or `wildcard_ref` is set and
the reference base is `N`, or `wildcard_query` is set and the query base
is `N`. -/
def baseMatch (wildcardRef wildcardQuery : Bool) (b1 b2 : Base) : Bool :=
  b1 == b2 || (wildcardRef && b1 == Base.N) || (wildcardQuery && b2 == Base.N)

/-- Modelled from the spec: `compare_prefixes` from `atropos._align`
(Cython module not under src/), §4.B: greedy base-by-base scan over the
common prefix length `L = min(|s1|, |s2|)`, no indels; returns
`(0, L, 0, L, matches, errors)` with `matches + errors = L`. -/
def comparePrefixes (s1 s2 : List Base) (wildcardRef wildcardQuery : Bool) : AlnSix :=
  let L := min s1.length s2.length
  let nm := ((s1.zip s2).filter fun p => baseMatch wildcardRef wildcardQuery p.1 p.2).length
  ⟨0, L, 0, L, nm, L - nm⟩

/-- Embedding of `compare_suffixes` (src/atropos/align.py lines 27-35):
reverse both strings, run `compare_prefixes`, and report positions
relative to the original (unreversed) strings. -/
def compareSuffixes (s1 s2 : List Base) (wildcardRef wildcardQuery : Bool) : AlnSix :=
  let s1r := s1.reverse
  let s2r := s2.reverse
  let r := comparePrefixes s1r s2r wildcardRef wildcardQuery
  ⟨s1r.length - r.s1stop, s1r.length, s2r.length - r.s1stop, s2r.length, r.nMatches, r.errors⟩

/-- Embedding of the truncation step of `InsertAligner.match_insert`
(src/atropos/align.py lines 197-203), faithful to the source including
the `seq2 = seq1[:l1]` assignment in the `l2 > l1` branch. -/
def matchInsertTruncate (seq1 seq2 : List Base) : List Base × List Base :=
  let l1 := seq1.length
  let l2 := seq2.length
  (if l1 > l2 then seq1.take l2 else seq1,
   if l2 > l1 then seq1.take l1 else seq2)

/-- Adapter object as seen by `Match.__init__` and `Match.wildcards`:
only the `sequence` and `max_error_rate` fields are consulted by the
embedded code paths. -/
structure Adapter where
  sequence : List Base
  maxErrorRate : ℚ
deriving DecidableEq

/-- Embedding of the `Match` record (src/atropos/align.py lines 39-60),
fields as stored by `__init__`.  `length` is derived (`astop - astart`).
The optional `adapter` and `read` back-references are stored here as the
adapter object and the read's sequence. -/
structure MatchRec where
  astart : Nat
  astop : Nat
  rstart : Nat
  rstop : Nat
  nMatches : Nat
  errors : Nat
  front : Bool
  adapter : Option Adapter
  read : Option (List Base)
deriving DecidableEq

/-- Derived `length` field of a Match: number of aligned adapter
characters (src/atropos/align.py line 56). -/
def MatchRec.length (m : MatchRec) : Nat :=
  m.astop - m.astart

/-- Embedding of `Match.__init__` (src/atropos/align.py lines 44-60)
with its assertions made explicit: construction yields `none` exactly
when one of the asserts (`length > 0`, `length - errors > 0`, and, when
an adapter is attached, `errors / length <= adapter.max_error_rate`)
would fail in the source. -/
def mkMatch (astart astop rstart rstop nMatches errors : Nat)
    (front : Option Bool) (adapter : Option Adapter) (read : Option (List Base)) :
    Option MatchRec :=
  let length := astop - astart
  let frontVal := front.getD (decide (rstart = 0))
  if 0 < length ∧ errors < length ∧
      (∀ a ∈ adapter, (errors : ℚ) / (length : ℚ) ≤ a.maxErrorRate) then
    some ⟨astart, astop, rstart, rstop, nMatches, errors, frontVal, adapter, read⟩
  else
    none

/-- Embedding of `Match.wildcards` (src/atropos/align.py lines 79-90):
collect, in increasing position order, the read base aligned to each
wildcard character of the adapter.  Returns `none` when the source would
raise (missing adapter/read back-reference, or adapter indexing out of
bounds at some scanned position). -/
def MatchRec.wildcards (m : MatchRec) (wildcardChar : Base) : Option (List Base) :=
  match m.adapter, m.read with
  | some a, some r =>
    if (List.range m.length).all (fun i => m.astart + i < a.sequence.length) then
      some (((List.range m.length).filter fun i =>
          a.sequence.getD (m.astart + i) Base.A == wildcardChar &&
            decide (m.rstart + i < r.length)).map
        fun i => r.getD (m.rstart + i) Base.A)
    else
      none
  | _, _ => none

/-- Modelled from the spec: `RandomMatchProbability` from `atropos.util`
(module not under src/), §4.A: upper tail of a Binomial(n, 1/4) — the
probability that a uniformly random length-`n` sequence matches a fixed
reference in at least `m` positions. -/
def randomMatchProbability (m n : Nat) : ℚ :=
  (((List.range (n + 1)).filter fun k => m ≤ k).map
    fun k => (n.choose k : ℚ) * (1 / 4) ^ k * (3 / 4) ^ (n - k)).sum

/-- Parameters of `InsertAligner.__init__` (src/atropos/align.py lines
167-184).  `matchProbability` is the injected random-match-probability
collaborator. -/
structure InsertAligner where
  adapter1 : List Base
  adapter2 : List Base
  matchProbability : Nat → Nat → ℚ
  insertMaxRmp : ℚ
  adapterMaxRmp : ℚ
  minInsertOverlap : Nat
  maxInsertMismatchFrac : ℚ
  minAdapterOverlap : Nat
  minAdapterMatchFrac : ℚ
  adapterCheckCutoff : Nat

/-- Default parameter values of `InsertAligner.__init__`, with the given
adapters and probability collaborator. -/
def InsertAligner.withDefaults (a1 a2 : List Base) (mp : Nat → Nat → ℚ) : InsertAligner :=
  ⟨a1, a2, mp, 1 / 1000000, 1 / 1000, 1, 1 / 5, 1, 4 / 5, 9⟩

/-- Embedding of `InsertAligner.insert_is_random_match`
(src/atropos/align.py lines 186-187). -/
def InsertAligner.insertIsRandomMatch (al : InsertAligner) (nMatches size : Nat) : Prop :=
  al.matchProbability nMatches size > al.insertMaxRmp

instance (al : InsertAligner) (nMatches size : Nat) :
    Decidable (al.insertIsRandomMatch nMatches size) := by
  unfold InsertAligner.insertIsRandomMatch
  infer_instance

/-- Embedding of `InsertAligner.adapter_match_probabilities`
(src/atropos/align.py lines 189-193). -/
def InsertAligner.adapterMatchProbabilities (al : InsertAligner)
    (a1Matches a2Matches size : Nat) : ℚ × ℚ × Bool :=
  let a1Prob := al.matchProbability a1Matches size
  let a2Prob := al.matchProbability a2Matches size
  (a1Prob, a2Prob, decide (a1Prob * a2Prob > al.adapterMaxRmp))

/-- Return points of `match_insert`, labelling which statement of the
source produced the returned value. -/
inductive MatchInsertTag
  | noAlignment
  | insertRandomMatch
  | belowMinAdapterOverlap
  | belowMinAdapterMatches
  | adapterRandomMatch
  | emitted
deriving DecidableEq

/-- Result list of `match_insert`:
`[insert_match, insert_size, adapter_match1, adapter_match2]`. -/
structure MatchInsertResult where
  insertMatch : Option AlnSix
  insertSize : Nat
  adapterMatch1 : Option MatchRec
  adapterMatch2 : Option MatchRec
deriving DecidableEq

/-- Embedding of `InsertAligner.match_insert` (src/atropos/align.py
lines 195-262).  `locate` is the semi-global aligner collaborator
(modelled from the spec's aligner contract, §4.C/§6, since the `_align`
Cython module is not under src/); it is applied as
`Aligner(seq2_rc, ...).locate(seq1)`, i.e. reference first, query
second.  An `Except.error` value models the `AssertionError` raised by
`Match.__init__` during the final emission step; the tag labels which
`return` statement of the source produced the value. -/
def matchInsert (al : InsertAligner)
    (locate : List Base → List Base → Option AlnSix)
    (seq1 seq2 : List Base) :
    Except Unit (MatchInsertTag × MatchInsertResult) :=
  let l1 := seq1.length
  let l2 := seq2.length
  let seqLen := min l1 l2
  let seq1t := (matchInsertTruncate seq1 seq2).1
  let seq2t := (matchInsertTruncate seq1 seq2).2
  let seq2rc := reverseComplement seq2t
  match locate seq2rc seq1t with
  | none => .ok (.noAlignment, ⟨none, 0, none, none⟩)
  | some im =>
    let offset := min im.s1start (seqLen - im.s2stop)
    let insertMatchSize := seqLen - offset
    if al.insertIsRandomMatch im.nMatches insertMatchSize then
      .ok (.insertRandomMatch, ⟨none, 0, none, none⟩)
    else if offset < al.minAdapterOverlap then
      .ok (.belowMinAdapterOverlap, ⟨some im, insertMatchSize, none, none⟩)
    else
      let a1Match := comparePrefixes (seq1t.drop insertMatchSize) al.adapter1 false false
      let a2Match := comparePrefixes (seq2t.drop insertMatchSize) al.adapter2 false false
      let adapterLen := min offset (min al.adapter1.length al.adapter2.length)
      let minAdapterMatches := ⌈(adapterLen : ℚ) * al.minAdapterMatchFrac⌉
      if (a1Match.nMatches : ℤ) < minAdapterMatches ∧
          (a2Match.nMatches : ℤ) < minAdapterMatches then
        .ok (.belowMinAdapterMatches, ⟨some im, insertMatchSize, none, none⟩)
      else
        let probs := al.adapterMatchProbabilities a1Match.nMatches a2Match.nMatches adapterLen
        if adapterLen > al.adapterCheckCutoff ∧ probs.2.2 = true then
          .ok (.adapterRandomMatch, ⟨some im, insertMatchSize, none, none⟩)
        else
          let adapterLen1 := min al.adapter1.length (l1 - insertMatchSize)
          let adapterLen2 := min al.adapter2.length (l2 - insertMatchSize)
          let best := if probs.1 < probs.2.1 then a1Match else a2Match
          match mkMatch 0 adapterLen1 insertMatchSize l1 best.nMatches best.errors none none none,
                mkMatch 0 adapterLen2 insertMatchSize l2 best.nMatches best.errors none none none with
          | some m1, some m2 => .ok (.emitted, ⟨some im, insertMatchSize, some m1, some m2⟩)
          | _, _ => .error ()

/-- Five-base read used in the C5 witness scenario. -/
def seqW : List Base := [.A, .C, .G, .T, .A]

/-- Constant locate collaborator for the C5 witness: full-length overlap
of the five-base reads (5 matches, 0 errors). -/
def locW : List Base → List Base → Option AlnSix := fun _ _ => some ⟨0, 5, 0, 5, 5, 0⟩

/-- Insert aligner with default parameters and the spec's random-match
probability, used by the witness scenarios. -/
def alW : InsertAligner :=
  .withDefaults [.A, .G, .A, .T, .C, .G, .G, .A, .A, .G] [.A] randomMatchProbability

/-- Ten-base insert shared by the witness scenarios. -/
def insH : List Base := [.A, .C, .G, .T, .A, .C, .G, .T, .A, .C]

/-- Two-base adapter of the emission ("happy path") scenario. -/
def adH : List Base := [.A, .G]

/-- Read 1 of the emission scenario: insert then adapter. -/
def seqH1 : List Base := insH ++ adH

/-- Read 2 of the emission scenario: reverse-complemented insert then
adapter. -/
def seqH2 : List Base := reverseComplement insH ++ adH

/-- Locate collaborator for the emission scenario: the ten-base insert
of `seqH1` overlaps `reverse_complement(seqH2)` at offset 2 (10 matches,
0 errors). -/
def locH : List Base → List Base → Option AlnSix := fun _ _ => some ⟨2, 12, 0, 10, 10, 0⟩

/-- Insert aligner of the emission scenario (default parameters). -/
def alH : InsertAligner := .withDefaults adH adH randomMatchProbability

/-- Ten-base adapter of the adapter-rmp-gate scenario. -/
def adB : List Base := [.A, .G, .A, .T, .C, .G, .G, .A, .A, .G]

/-- Read tail of the adapter-rmp-gate scenario: 8 of 10 bases match
`adB` (mismatches at the last two positions). -/
def tailB : List Base := [.A, .G, .A, .T, .C, .G, .G, .A, .C, .C]

/-- Read 1 of the adapter-rmp-gate scenario. -/
def seqB1 : List Base := insH ++ tailB

/-- Read 2 of the adapter-rmp-gate scenario. -/
def seqB2 : List Base := reverseComplement insH ++ tailB

/-- Locate collaborator for the adapter-rmp-gate scenario: overlap at
offset 10 with 10 matches, 0 errors. -/
def locB : List Base → List Base → Option AlnSix := fun _ _ => some ⟨10, 20, 0, 10, 10, 0⟩

/-- Insert aligner of the adapter-rmp-gate scenario: default parameters
except `adapter_max_rmp = 1e-9`, small enough that two 8/10 adapter
matches count as a random match. -/
def alB : InsertAligner :=
  ⟨adB, adB, randomMatchProbability, 1 / 1000000, 1 / 1000000000, 1, 1 / 5, 1, 4 / 5, 9⟩

/-- Adapter used by the C3 witness: sequence `ACGTA`, max error rate 1/10. -/
def adW3 : Adapter := ⟨[.A, .C, .G, .T, .A], 1 / 10⟩

/-- Forty-base insert of the assertion-failure counterexample. -/
def insertX : List Base := (List.replicate 10 [Base.A, Base.C, Base.G, Base.T]).flatten

/-- Single-base adapter 2 of the assertion-failure counterexample. -/
def adX2 : List Base := [.A]

/-- Read-2 tail of the assertion-failure counterexample: only its first
base matches `adX2`. -/
def tailX2 : List Base := [.A, .G, .G, .G, .G, .G, .G, .G, .G, .G]

/-- Read 1 of the assertion-failure counterexample (insert then a tail
with 8 of 10 bases matching the ten-base adapter `adB`). -/
def seqX1 : List Base := insertX ++ tailB

/-- Read 2 of the assertion-failure counterexample. -/
def seqX2 : List Base := reverseComplement insertX ++ tailX2

/-- Locate collaborator of the assertion-failure counterexample:
`reverse_complement(seqX2)` carries `insertX` at offset 10, so the
semi-global aligner of §4.C finds the forty-base overlap
`(refstart 10, refstop 50, querystart 0, querystop 40, 40 matches,
0 errors)`. -/
def locX : List Base → List Base → Option AlnSix := fun _ _ => some ⟨10, 50, 0, 40, 40, 0⟩

/-- Insert aligner of the assertion-failure counterexample: default
parameters, adapters `AGATCGGAAG` and `A`. -/
def alX : InsertAligner := .withDefaults adB adX2 randomMatchProbability

/-- Adapter `ATNGNA` of the C8 witness scenario. -/
def adWc : Adapter := ⟨[.A, .T, .N, .G, .N, .A], 1 / 10⟩

/-- State of an `OrderPreservingWriterResultHandler`
(src/atropos/commands/trim.py lines 533-562): the next expected batch
number, the pending buffer (a min-priority queue keyed by batch number,
modelled as its entry list), and the results written so far, in order. -/
structure OPState (α : Type) where
  curBatch : Nat
  pending : List (Nat × α)
  written : List α
deriving DecidableEq

/-- Modelled from the spec: `PendingQueue.push` from `atropos.multicore`
(module not under src/) — add an entry to the min-priority queue. -/
def pendingPush {α : Type} (q : List (Nat × α)) (priority : Nat) (value : α) :
    List (Nat × α) :=
  q ++ [(priority, value)]

/-- Embedding of `OrderPreservingWriterResultHandler.consume_pending`
(src/atropos/commands/trim.py lines 559-562), faithful to the source:
the loop condition reads `self.pending.empty` and then the bare name
`pending`, so whenever the buffer is non-empty the method raises a
`NameError` (modelled as `Except.error`); with an empty buffer the loop
body never runs and the state is returned unchanged. -/
def consumePending {α : Type} (s : OPState α) : Except String (OPState α) :=
  if s.pending.isEmpty then .ok s
  else .error "NameError: name 'pending' is not defined"

/-- Embedding of `OrderPreservingWriterResultHandler.write_result`
(src/atropos/commands/trim.py lines 543-549): write the result and
consume the pending buffer when the batch number is the next expected
one, otherwise push the result onto the pending queue. -/
def opWriteResult {α : Type} (s : OPState α) (batchNum : Nat) (result : α) :
    Except String (OPState α) :=
  if batchNum = s.curBatch then
    consumePending { s with written := s.written ++ [result], curBatch := s.curBatch + 1 }
  else
    .ok { s with pending := pendingPush s.pending batchNum result }

/-- Union of the workers' `seen_batches` sets, folded exactly as the
summary-collection loop of `run_parallel._run` does
(src/atropos/commands/trim.py line 704). -/
def seenBatchesUnion (workerBatches : List (Finset Nat)) : Finset Nat :=
  workerBatches.foldl (fun acc b => acc ∪ b) ∅

/-- Embedding of the missing-batch check of `run_parallel._run`
(src/atropos/commands/trim.py lines 708-713): when `num_batches > 0`,
compute `missing = {1..num_batches} - seen`; raise an exception naming
the missing batches when it is non-empty. -/
def checkMissingBatches (numBatches : Nat) (seen : Finset Nat) :
    Except (Finset Nat) Unit :=
  if 0 < numBatches then
    let missing := Finset.Icc 1 numBatches \ seen
    if 0 < missing.card then .error missing else .ok ()
  else .ok ()

/-- Embedding of the entry checks of `run_parallel`
(src/atropos/commands/trim.py lines 594-601): reject `threads < 2`
before anything else; then resolve the compression mode and reserve a
thread for a compressing writer.  The queues, worker processes and
writer process of the source are created only after this prefix, so an
error return models `ValueError` being raised before any of them
exists. -/
def runParallelInit (threads : ℤ) (useWriterProcess canCompress : Bool)
    (compression : Option String) : Except String (ℤ × String) :=
  if threads < 2 then .error "'threads' must be >= 2"
  else
    let comp := compression.getD
      (if useWriterProcess && canCompress then "writer" else "worker")
    let threads1 := if comp = "writer" ∧ threads > 2 then threads - 1 else threads
    .ok (threads1, comp)

/-- C1: the claim states that when `|seq2| > |seq1|` the insert aligner
truncates `seq2` to `seq2[:|seq1|]`; the source instead assigns
`seq2 = seq1[:l1]`, so on `seq1 = A`, `seq2 = CC` the second sequence
becomes `A` rather than the claimed `C`. -/
theorem matchInsertTruncate_seq2_bug :
    (matchInsertTruncate [Base.A] [Base.C, Base.C]).2 = [Base.A] ∧
    (matchInsertTruncate [Base.A] [Base.C, Base.C]).2 ≠ ([Base.C, Base.C].take 1) := by
  decide

/-- Helper: among `0..n`, only `n` itself is `≥ n`. -/
theorem filter_range_succ_ge_self (n : Nat) :
    ((List.range (n + 1)).filter fun k => n ≤ k) = [n] := by
  rw [List.range_succ, List.filter_append]
  have h1 : ((List.range n).filter fun k => n ≤ k) = [] := by
    rw [List.filter_eq_nil_iff]
    intro k hk
    simp only [List.mem_range] at hk
    simp only [decide_eq_true_eq]
    omega
  rw [h1]
  simp

/-- Evaluation: a perfect match over `n` positions has random-match
probability `(1/4)^n`. -/
theorem randomMatchProbability_self (n : Nat) :
    randomMatchProbability n n = (1 / 4 : ℚ) ^ n := by
  unfold randomMatchProbability
  rw [filter_range_succ_ge_self]
  simp

/-- Evaluation: more matches than positions has random-match
probability `0` (the binomial tail is an empty sum). -/
theorem randomMatchProbability_of_lt (m n : Nat) (h : n < m) :
    randomMatchProbability m n = 0 := by
  unfold randomMatchProbability
  have h1 : ((List.range (n + 1)).filter fun k => m ≤ k) = [] := by
    rw [List.filter_eq_nil_iff]
    intro k hk
    simp only [List.mem_range] at hk
    simp only [decide_eq_true_eq]
    omega
  rw [h1]
  simp

/-- C5: when the overlap alignment succeeds, `match_insert` computes
`offset = min(refstart, seq_len - querystop)` and
`insert_size = seq_len - offset`, and if the random-match probability of
the insert exceeds `insert_max_rmp` it returns with the insert match,
both adapter matches cleared, and insert size 0. -/
theorem matchInsert_insert_rmp_gate (al : InsertAligner)
    (locate : List Base → List Base → Option AlnSix)
    (seq1 seq2 : List Base) (im : AlnSix)
    (hloc : locate (reverseComplement (matchInsertTruncate seq1 seq2).2)
        (matchInsertTruncate seq1 seq2).1 = some im)
    (hgate : al.matchProbability im.nMatches
        (min seq1.length seq2.length -
          min im.s1start (min seq1.length seq2.length - im.s2stop)) > al.insertMaxRmp) :
    matchInsert al locate seq1 seq2 =
      .ok (.insertRandomMatch, ⟨none, 0, none, none⟩) := by
  have hgate' : al.insertIsRandomMatch im.nMatches
      (min seq1.length seq2.length -
        min im.s1start (min seq1.length seq2.length - im.s2stop)) := hgate
  simp only [matchInsert, hloc]
  rw [if_pos hgate']

/-- Witness for C5: a five-base perfect overlap has random-match
probability `(1/4)^5 = 1/1024 > 1e-6`, so the gate fires and the result
is fully cleared. -/
theorem matchInsert_insert_rmp_gate_witness :
    matchInsert alW locW seqW seqW = .ok (.insertRandomMatch, ⟨none, 0, none, none⟩) :=
  matchInsert_insert_rmp_gate alW locW seqW seqW ⟨0, 5, 0, 5, 5, 0⟩ rfl (by
    show randomMatchProbability 5 5 > (1 / 1000000 : ℚ)
    rw [randomMatchProbability_self]
    norm_num)

/-- C6: after a non-random insert match with `offset >= min_adapter_overlap`
and `adapter_len = min(offset, |adapter1|, |adapter2|)`: if
`adapter_len > adapter_check_cutoff` and `P1 * P2 > adapter_max_rmp`, the
function returns with the adapter match fields cleared while the insert
match and insert size are kept; otherwise the adapter gate does not clear
the result on random-match-probability grounds (the returned value does
not come from that return statement). -/
theorem matchInsert_adapter_rmp_gate (al : InsertAligner)
    (locate : List Base → List Base → Option AlnSix)
    (seq1 seq2 : List Base) (im : AlnSix) (offset isize adapterLen : Nat) (p1 p2 : ℚ)
    (hloc : locate (reverseComplement (matchInsertTruncate seq1 seq2).2)
        (matchInsertTruncate seq1 seq2).1 = some im)
    (hoff : offset = min im.s1start (min seq1.length seq2.length - im.s2stop))
    (hsize : isize = min seq1.length seq2.length - offset)
    (hins : ¬ al.matchProbability im.nMatches isize > al.insertMaxRmp)
    (hov : ¬ offset < al.minAdapterOverlap)
    (hlen : adapterLen = min offset (min al.adapter1.length al.adapter2.length))
    (hp1 : p1 = al.matchProbability
        (comparePrefixes ((matchInsertTruncate seq1 seq2).1.drop isize)
          al.adapter1 false false).nMatches adapterLen)
    (hp2 : p2 = al.matchProbability
        (comparePrefixes ((matchInsertTruncate seq1 seq2).2.drop isize)
          al.adapter2 false false).nMatches adapterLen) :
    (adapterLen > al.adapterCheckCutoff ∧ p1 * p2 > al.adapterMaxRmp →
      Except.map Prod.snd (matchInsert al locate seq1 seq2) =
        .ok ⟨some im, isize, none, none⟩) ∧
    (¬ (adapterLen > al.adapterCheckCutoff ∧ p1 * p2 > al.adapterMaxRmp) →
      Except.map Prod.fst (matchInsert al locate seq1 seq2) ≠
        .ok .adapterRandomMatch) := by
  subst hoff hsize hlen hp1 hp2
  have hins' : ¬ al.insertIsRandomMatch im.nMatches
      (min seq1.length seq2.length -
        min im.s1start (min seq1.length seq2.length - im.s2stop)) := hins
  constructor
  · intro hcond
    simp only [matchInsert, hloc]
    rw [if_neg hins', if_neg hov]
    simp only [InsertAligner.adapterMatchProbabilities]
    by_cases h7 : ((comparePrefixes ((matchInsertTruncate seq1 seq2).1.drop
          (min seq1.length seq2.length -
            min im.s1start (min seq1.length seq2.length - im.s2stop)))
          al.adapter1 false false).nMatches : ℤ) <
        ⌈((min (min im.s1start (min seq1.length seq2.length - im.s2stop))
            (min al.adapter1.length al.adapter2.length) : Nat) : ℚ) *
          al.minAdapterMatchFrac⌉ ∧
        ((comparePrefixes ((matchInsertTruncate seq1 seq2).2.drop
          (min seq1.length seq2.length -
            min im.s1start (min seq1.length seq2.length - im.s2stop)))
          al.adapter2 false false).nMatches : ℤ) <
        ⌈((min (min im.s1start (min seq1.length seq2.length - im.s2stop))
            (min al.adapter1.length al.adapter2.length) : Nat) : ℚ) *
          al.minAdapterMatchFrac⌉
    · rw [if_pos h7]
      rfl
    · rw [if_neg h7, if_pos ⟨hcond.1, decide_eq_true hcond.2⟩]
      rfl
  · intro hncond
    simp only [matchInsert, hloc]
    rw [if_neg hins', if_neg hov]
    simp only [InsertAligner.adapterMatchProbabilities]
    split
    · simp [Except.map]
    · rw [if_neg (fun hc => hncond ⟨hc.1, of_decide_eq_true hc.2⟩)]
      split
      · simp [Except.map]
      · simp [Except.map]

/-- Evaluation: the random-match probability of 8 matches over 10
positions is `436/1048576` (about 4.16e-4). -/
theorem randomMatchProbability_eight_ten :
    randomMatchProbability 8 10 = 436 / 1048576 := by
  unfold randomMatchProbability
  have h : ((List.range 11).filter fun k => 8 ≤ k) = [8, 9, 10] := by decide
  rw [h]
  have c8 : Nat.choose 10 8 = 45 := by decide
  have c9 : Nat.choose 10 9 = 10 := by decide
  have c10 : Nat.choose 10 10 = 1 := by decide
  simp [c8, c9, c10]
  norm_num

/-- Witness for C6: in the first scenario the adapter gate fires
(`adapter_len = 10 > 9` and `P1 * P2 > adapter_max_rmp`) and the result
keeps the insert match but clears the adapter matches; in the second
scenario `adapter_len = 2 ≤ 9`, so the returned value does not come from
the adapter-rmp return statement. -/
theorem matchInsert_adapter_rmp_gate_witness :
    Except.map Prod.snd (matchInsert alB locB seqB1 seqB2) =
      .ok ⟨some ⟨10, 20, 0, 10, 10, 0⟩, 10, none, none⟩ ∧
    Except.map Prod.fst (matchInsert alH locH seqH1 seqH2) ≠
      .ok .adapterRandomMatch := by
  constructor
  · refine (matchInsert_adapter_rmp_gate alB locB seqB1 seqB2 ⟨10, 20, 0, 10, 10, 0⟩
      _ _ _ _ _ rfl rfl rfl ?_ (by decide) rfl rfl rfl).1 ⟨by decide, ?_⟩
    · show ¬ randomMatchProbability 10 10 > (1 / 1000000 : ℚ)
      rw [randomMatchProbability_self]
      norm_num
    · show randomMatchProbability 8 10 * randomMatchProbability 8 10 > (1 / 1000000000 : ℚ)
      rw [randomMatchProbability_eight_ten]
      norm_num
  · refine (matchInsert_adapter_rmp_gate alH locH seqH1 seqH2 ⟨2, 12, 0, 10, 10, 0⟩
      _ _ _ _ _ rfl rfl rfl ?_ (by decide) rfl rfl rfl).2 ?_
    · show ¬ randomMatchProbability 10 10 > (1 / 1000000 : ℚ)
      rw [randomMatchProbability_self]
      norm_num
    · intro hc
      exact absurd hc.1 (by decide)

/-- Inversion of a successful `Match` construction: the assertion
conditions held and the fields are stored verbatim. -/
theorem mkMatch_eq_some {astart astop rstart rstop nm err : Nat} {front : Option Bool}
    {adapter : Option Adapter} {read : Option (List Base)} {m : MatchRec}
    (h : mkMatch astart astop rstart rstop nm err front adapter read = some m) :
    (0 < astop - astart ∧ err < astop - astart ∧
      ∀ a ∈ adapter, (err : ℚ) / ((astop - astart : Nat) : ℚ) ≤ a.maxErrorRate) ∧
    m = ⟨astart, astop, rstart, rstop, nm, err,
          front.getD (decide (rstart = 0)), adapter, read⟩ := by
  simp only [mkMatch] at h
  split at h
  · rename_i hc
    refine ⟨hc, ?_⟩
    injection h with h
    exact h.symm
  · cases h

/-- Characterization of the emission branch of `match_insert`: when the
alignment succeeds and every gate lets the flow through, the two Match
records built from the best adapter side are returned together with the
insert match and insert size.  The equation hypotheses name the
intermediate values of the source (offset, insert size, adapter length,
the two prefix comparisons, their probabilities, and the best side). -/
theorem matchInsert_emitted_of (al : InsertAligner)
    (locate : List Base → List Base → Option AlnSix)
    (seq1 seq2 : List Base) (im a1M a2M best : AlnSix)
    (offset isize adapterLen : Nat) (p1 p2 : ℚ) (m1 m2 : MatchRec)
    (hloc : locate (reverseComplement (matchInsertTruncate seq1 seq2).2)
        (matchInsertTruncate seq1 seq2).1 = some im)
    (hoff : offset = min im.s1start (min seq1.length seq2.length - im.s2stop))
    (hsize : isize = min seq1.length seq2.length - offset)
    (hins : ¬ al.matchProbability im.nMatches isize > al.insertMaxRmp)
    (hov : ¬ offset < al.minAdapterOverlap)
    (ha1 : a1M = comparePrefixes ((matchInsertTruncate seq1 seq2).1.drop isize)
        al.adapter1 false false)
    (ha2 : a2M = comparePrefixes ((matchInsertTruncate seq1 seq2).2.drop isize)
        al.adapter2 false false)
    (hlen : adapterLen = min offset (min al.adapter1.length al.adapter2.length))
    (h7 : ¬ ((a1M.nMatches : ℤ) < ⌈(adapterLen : ℚ) * al.minAdapterMatchFrac⌉ ∧
        (a2M.nMatches : ℤ) < ⌈(adapterLen : ℚ) * al.minAdapterMatchFrac⌉))
    (hp1 : p1 = al.matchProbability a1M.nMatches adapterLen)
    (hp2 : p2 = al.matchProbability a2M.nMatches adapterLen)
    (h8 : ¬ (adapterLen > al.adapterCheckCutoff ∧ p1 * p2 > al.adapterMaxRmp))
    (hbest : (if p1 < p2 then a1M else a2M) = best)
    (hm1 : mkMatch 0 (min al.adapter1.length (seq1.length - isize)) isize seq1.length
        best.nMatches best.errors none none none = some m1)
    (hm2 : mkMatch 0 (min al.adapter2.length (seq2.length - isize)) isize seq2.length
        best.nMatches best.errors none none none = some m2) :
    matchInsert al locate seq1 seq2 = .ok (.emitted, ⟨some im, isize, some m1, some m2⟩) := by
  subst hoff hsize hlen ha1 ha2 hp1 hp2 hbest
  have hins' : ¬ al.insertIsRandomMatch im.nMatches
      (min seq1.length seq2.length -
        min im.s1start (min seq1.length seq2.length - im.s2stop)) := hins
  simp only [matchInsert, hloc]
  rw [if_neg hins', if_neg hov]
  simp only [InsertAligner.adapterMatchProbabilities]
  rw [if_neg h7, if_neg (fun hc => h8 ⟨hc.1, of_decide_eq_true hc.2⟩), hm1, hm2]

/-- C3: every successfully constructed Match satisfies the constructor
invariants (`0 < length`, `errors < length`, and, when an adapter is
attached, `errors ≤ length × max_error_rate`), and every Match emitted
by the insert aligner additionally satisfies the positional bounds
`0 = astart < astop ≤ |adapter|` and `rstart ≤ rstop = |read|`. -/
theorem match_validity :
    (∀ (astart astop rstart rstop nm err : Nat) (front : Option Bool)
        (adapter : Option Adapter) (read : Option (List Base)) (m : MatchRec),
        mkMatch astart astop rstart rstop nm err front adapter read = some m →
        0 < m.length ∧ m.errors < m.length ∧
          ∀ a ∈ m.adapter, (m.errors : ℚ) ≤ (m.length : ℚ) * a.maxErrorRate) ∧
    (∀ (al : InsertAligner) (locate : List Base → List Base → Option AlnSix)
        (seq1 seq2 : List Base) (tag : MatchInsertTag) (res : MatchInsertResult),
        matchInsert al locate seq1 seq2 = .ok (tag, res) →
        (∀ m1 ∈ res.adapterMatch1,
          m1.astart = 0 ∧ 0 < m1.astop ∧ m1.astop ≤ al.adapter1.length ∧
            m1.rstart ≤ m1.rstop ∧ m1.rstop = seq1.length) ∧
        (∀ m2 ∈ res.adapterMatch2,
          m2.astart = 0 ∧ 0 < m2.astop ∧ m2.astop ≤ al.adapter2.length ∧
            m2.rstart ≤ m2.rstop ∧ m2.rstop = seq2.length)) := by
  constructor
  · intro astart astop rstart rstop nm err front adapter read m h
    obtain ⟨⟨hlen, herr, hrate⟩, hm⟩ := mkMatch_eq_some h
    subst hm
    simp only [MatchRec.length]
    refine ⟨hlen, herr, ?_⟩
    intro a ha
    have hgt : (0 : ℚ) < ((astop - astart : Nat) : ℚ) := by exact_mod_cast hlen
    have h1 := (div_le_iff₀ hgt).mp (hrate a ha)
    calc (err : ℚ) ≤ a.maxErrorRate * ((astop - astart : Nat) : ℚ) := h1
      _ = ((astop - astart : Nat) : ℚ) * a.maxErrorRate := by ring
  · intro al locate seq1 seq2 tag res h
    simp only [matchInsert] at h
    split at h
    · simp only [Except.ok.injEq, Prod.mk.injEq] at h
      obtain ⟨-, hres⟩ := h
      subst hres
      simp
    · split at h
      · simp only [Except.ok.injEq, Prod.mk.injEq] at h
        obtain ⟨-, hres⟩ := h
        subst hres
        simp
      · split at h
        · simp only [Except.ok.injEq, Prod.mk.injEq] at h
          obtain ⟨-, hres⟩ := h
          subst hres
          simp
        · split at h
          · simp only [Except.ok.injEq, Prod.mk.injEq] at h
            obtain ⟨-, hres⟩ := h
            subst hres
            simp
          · split at h
            · simp only [Except.ok.injEq, Prod.mk.injEq] at h
              obtain ⟨-, hres⟩ := h
              subst hres
              simp
            · split at h
              · rename_i m1 m2 heq1 heq2
                obtain ⟨⟨h1len, -, -⟩, hm1⟩ := mkMatch_eq_some heq1
                obtain ⟨⟨h2len, -, -⟩, hm2⟩ := mkMatch_eq_some heq2
                simp only [Except.ok.injEq, Prod.mk.injEq] at h
                obtain ⟨-, hres⟩ := h
                subst hres
                subst hm1 hm2
                constructor
                · intro m hm
                  simp only [Option.mem_def, Option.some.injEq] at hm
                  subst hm
                  refine ⟨rfl, ?_, ?_, ?_, rfl⟩ <;> dsimp only <;> omega
                · intro m hm
                  simp only [Option.mem_def, Option.some.injEq] at hm
                  subst hm
                  refine ⟨rfl, ?_, ?_, ?_, rfl⟩ <;> dsimp only <;> omega
              · cases h

/-- Witness for C3: a concrete constructed Match (2 aligned bases,
0 errors, adapter attached) satisfies the constructor invariants, and
the read-1 Match emitted on the happy-path scenario satisfies the
positional bounds. -/
theorem match_validity_witness :
    (0 < (2 : Nat) ∧ (0 : Nat) < 2 ∧
      ((0 : Nat) : ℚ) ≤ ((2 : Nat) : ℚ) * adW3.maxErrorRate) ∧
    ((0 : Nat) = 0 ∧ 0 < (2 : Nat) ∧ (2 : Nat) ≤ 2 ∧ (10 : Nat) ≤ 12 ∧
      (12 : Nat) = 12) := by
  have hmk : mkMatch 0 2 0 5 2 0 none (some adW3) none =
      some ⟨0, 2, 0, 5, 2, 0, true, some adW3, none⟩ := by
    simp only [mkMatch]
    split
    · rfl
    · rename_i hc
      exact absurd ⟨by norm_num, by norm_num, fun a ha => by
        simp only [Option.mem_def, Option.some.injEq] at ha
        subst ha
        norm_num [adW3]⟩ hc
  have hceil : ⌈((2 : Nat) : ℚ) * (4 / 5 : ℚ)⌉ = 2 := by
    rw [Int.ceil_eq_iff]
    norm_num
  have hrun : matchInsert alH locH seqH1 seqH2 =
      .ok (.emitted, ⟨some ⟨2, 12, 0, 10, 10, 0⟩, 10,
        some ⟨0, 2, 10, 12, 2, 0, false, none, none⟩,
        some ⟨0, 2, 10, 12, 2, 0, false, none, none⟩⟩) := by
    refine matchInsert_emitted_of alH locH seqH1 seqH2 ⟨2, 12, 0, 10, 10, 0⟩
      _ _ ⟨0, 2, 0, 2, 2, 0⟩ _ _ _ _ _ _ _ rfl rfl rfl ?_ (by decide) rfl rfl rfl ?_
      rfl rfl ?_ ?_ ?_ ?_
    · show ¬ randomMatchProbability 10 10 > (1 / 1000000 : ℚ)
      rw [randomMatchProbability_self]
      norm_num
    · intro hc
      have hc1 : ((2 : Nat) : ℤ) < ⌈((2 : Nat) : ℚ) * (4 / 5 : ℚ)⌉ := hc.1
      rw [hceil] at hc1
      exact absurd hc1 (by decide)
    · intro hc
      exact absurd hc.1 (by decide)
    · refine Eq.trans (if_neg ?_) (by decide)
      show ¬ randomMatchProbability 2 2 < randomMatchProbability 2 2
      exact lt_irrefl _
    · exact (by decide : mkMatch 0 2 10 12 2 0 none none none =
        some ⟨0, 2, 10, 12, 2, 0, false, none, none⟩)
    · exact (by decide : mkMatch 0 2 10 12 2 0 none none none =
        some ⟨0, 2, 10, 12, 2, 0, false, none, none⟩)
  have p1 := match_validity.1 0 2 0 5 2 0 none (some adW3) none _ hmk
  have p2 := (match_validity.2 alH locH seqH1 seqH2 .emitted _ hrun).1
    ⟨0, 2, 10, 12, 2, 0, false, none, none⟩ rfl
  exact ⟨⟨p1.1, p1.2.1, p1.2.2 adW3 rfl⟩, p2⟩

/-- Characterization of the assertion-failure branch of `match_insert`:
when every gate lets the flow through but the second `Match`
construction fails its assertions, the call raises (`Except.error`
models the `AssertionError` of `Match.__init__`). -/
theorem matchInsert_assert_error_of (al : InsertAligner)
    (locate : List Base → List Base → Option AlnSix)
    (seq1 seq2 : List Base) (im a1M a2M best : AlnSix)
    (offset isize adapterLen : Nat) (p1 p2 : ℚ) (m1 : MatchRec)
    (hloc : locate (reverseComplement (matchInsertTruncate seq1 seq2).2)
        (matchInsertTruncate seq1 seq2).1 = some im)
    (hoff : offset = min im.s1start (min seq1.length seq2.length - im.s2stop))
    (hsize : isize = min seq1.length seq2.length - offset)
    (hins : ¬ al.matchProbability im.nMatches isize > al.insertMaxRmp)
    (hov : ¬ offset < al.minAdapterOverlap)
    (ha1 : a1M = comparePrefixes ((matchInsertTruncate seq1 seq2).1.drop isize)
        al.adapter1 false false)
    (ha2 : a2M = comparePrefixes ((matchInsertTruncate seq1 seq2).2.drop isize)
        al.adapter2 false false)
    (hlen : adapterLen = min offset (min al.adapter1.length al.adapter2.length))
    (h7 : ¬ ((a1M.nMatches : ℤ) < ⌈(adapterLen : ℚ) * al.minAdapterMatchFrac⌉ ∧
        (a2M.nMatches : ℤ) < ⌈(adapterLen : ℚ) * al.minAdapterMatchFrac⌉))
    (hp1 : p1 = al.matchProbability a1M.nMatches adapterLen)
    (hp2 : p2 = al.matchProbability a2M.nMatches adapterLen)
    (h8 : ¬ (adapterLen > al.adapterCheckCutoff ∧ p1 * p2 > al.adapterMaxRmp))
    (hbest : (if p1 < p2 then a1M else a2M) = best)
    (hm1 : mkMatch 0 (min al.adapter1.length (seq1.length - isize)) isize seq1.length
        best.nMatches best.errors none none none = some m1)
    (hm2 : mkMatch 0 (min al.adapter2.length (seq2.length - isize)) isize seq2.length
        best.nMatches best.errors none none none = none) :
    matchInsert al locate seq1 seq2 = .error () := by
  subst hoff hsize hlen ha1 ha2 hp1 hp2 hbest
  have hins' : ¬ al.insertIsRandomMatch im.nMatches
      (min seq1.length seq2.length -
        min im.s1start (min seq1.length seq2.length - im.s2stop)) := hins
  simp only [matchInsert, hloc]
  rw [if_neg hins', if_neg hov]
  simp only [InsertAligner.adapterMatchProbabilities]
  rw [if_neg h7, if_neg (fun hc => h8 ⟨hc.1, of_decide_eq_true hc.2⟩), hm1, hm2]

/-- C9: the assertion-failure branch of `Match.__init__` is reachable
from `match_insert`: with default parameters, a ten-base adapter 1 and a
one-base adapter 2, a genuine forty-base overlap at offset 10 passes
every gate, the best adapter side (read 1, with 8 matches and 2
mismatches) supplies `errors = 2` to both Match records, and the read-2
record has `length = min(|adapter2|, offset) = 1`, so the assertion
`length - errors > 0` fails and `match_insert` raises. -/
theorem matchInsert_assertion_failure :
    matchInsert alX locX seqX1 seqX2 = .error () := by
  have hceil1 : ⌈((1 : Nat) : ℚ) * (4 / 5 : ℚ)⌉ = 1 := by
    rw [Int.ceil_eq_iff]
    norm_num
  refine matchInsert_assert_error_of alX locX seqX1 seqX2 ⟨10, 50, 0, 40, 40, 0⟩
    _ _ ⟨0, 10, 0, 10, 8, 2⟩ _ _ _ _ _ ⟨0, 10, 40, 50, 8, 2, false, none, none⟩
    rfl rfl rfl ?_ (by decide) rfl rfl rfl ?_ rfl rfl ?_ ?_ ?_ ?_
  · show ¬ randomMatchProbability 40 40 > (1 / 1000000 : ℚ)
    rw [randomMatchProbability_self]
    norm_num
  · intro hc
    have hc1 : ((8 : Nat) : ℤ) < ⌈((1 : Nat) : ℚ) * (4 / 5 : ℚ)⌉ := hc.1
    rw [hceil1] at hc1
    exact absurd hc1 (by decide)
  · intro hc
    exact absurd hc.1 (by decide)
  · refine Eq.trans (if_pos ?_) (by decide)
    show randomMatchProbability 8 1 < randomMatchProbability 1 1
    rw [randomMatchProbability_of_lt 8 1 (by norm_num), randomMatchProbability_self]
    norm_num
  · exact (by decide : mkMatch 0 10 40 50 8 2 none none none =
      some ⟨0, 10, 40, 50, 8, 2, false, none, none⟩)
  · exact (by decide : mkMatch 0 1 40 50 8 2 none none none = none)

/-- C8: `wildcards` collects, in increasing position order, the read
base aligned to every adapter position holding the wildcard character,
restricted to positions that fall inside the read. -/
theorem wildcards_collects (m : MatchRec) (a : Adapter) (r : List Base)
    (ha : m.adapter = some a) (hr : m.read = some r)
    (hbound : ((List.range m.length).all fun i => m.astart + i < a.sequence.length) = true) :
    m.wildcards Base.N = some (((List.range m.length).filter fun i =>
        a.sequence.getD (m.astart + i) Base.A == Base.N &&
          decide (m.rstart + i < r.length)).map
      fun i => r.getD (m.rstart + i) Base.A) := by
  obtain ⟨ast, asp, rst, rsp, nm, err, fr, ad, rd⟩ := m
  replace ha : ad = some a := ha
  replace hr : rd = some r := hr
  subst ha hr
  simp only [MatchRec.wildcards]
  rw [if_pos hbound]

/-- Witness for C8: adapter `ATNGNA` matched against read `ATCGTA`
yields `wildcards(N) = CT`. -/
theorem wildcards_collects_witness :
    MatchRec.wildcards
      ⟨0, 6, 0, 6, 4, 2, true, some adWc, some [.A, .T, .C, .G, .T, .A]⟩ Base.N =
      some [Base.C, Base.T] :=
  (wildcards_collects ⟨0, 6, 0, 6, 4, 2, true, some adWc, some [.A, .T, .C, .G, .T, .A]⟩
    adWc [.A, .T, .C, .G, .T, .A] rfl rfl (by decide)).trans (by decide)

/-- C4: `compare_suffixes s1 s2` mirrors `compare_prefixes` applied to the
reversed strings: if the latter returns `(0, L, 0, L, matches, errors)`
then `L = min(|s1|, |s2|)` and `compare_suffixes` returns
`(|s1| - L, |s1|, |s2| - L, |s2|, matches, errors)`. -/
theorem compareSuffixes_mirror (s1 s2 : List Base) (wr wq : Bool) (L m e : Nat)
    (h : comparePrefixes s1.reverse s2.reverse wr wq = ⟨0, L, 0, L, m, e⟩) :
    L = min s1.length s2.length ∧
    compareSuffixes s1 s2 wr wq = ⟨s1.length - L, s1.length, s2.length - L, s2.length, m, e⟩ := by
  have hL : (comparePrefixes s1.reverse s2.reverse wr wq).s1stop = L := by
    rw [h]
  have hL' : L = min s1.length s2.length := by
    rw [← hL]
    simp [comparePrefixes]
  refine ⟨hL', ?_⟩
  simp only [compareSuffixes, h]
  simp

/-- Witness for C4 at `s1 = AC`, `s2 = C`. -/
theorem compareSuffixes_mirror_witness :
    1 = min 2 1 ∧
    compareSuffixes [Base.A, Base.C] [Base.C] false false = ⟨1, 2, 0, 1, 1, 0⟩ :=
  compareSuffixes_mirror [Base.A, Base.C] [Base.C] false false 1 1 0 (by decide)

/-- C2: the claim states that a result for the next expected batch is
written and then every contiguous buffered batch is flushed from the
pending queue; in the source, `consume_pending` references a bare
`pending` instead of `self.pending`, so the first flush attempt with a
non-empty buffer raises a `NameError` instead of flushing.  Here batch 2
arrives first (buffered), then batch 1 arrives: batch 1 is written but
flushing buffered batch 2 fails. -/
theorem opWriteResult_name_error :
    opWriteResult (⟨1, [], []⟩ : OPState Nat) 2 20 = .ok ⟨1, [(2, 20)], []⟩ ∧
    opWriteResult (⟨1, [(2, 20)], []⟩ : OPState Nat) 1 10 =
      .error "NameError: name 'pending' is not defined" :=
  ⟨rfl, rfl⟩

/-- C7: with `num_batches > 0`, if the union of the workers'
`seen_batches` does not cover `{1..num_batches}` the run fails with an
exception naming exactly the missing batch numbers; if it covers every
batch number, no such failure occurs. -/
theorem run_parallel_missing_batches (numBatches : Nat)
    (workers : List (Finset Nat)) (hpos : 0 < numBatches) :
    (¬ Finset.Icc 1 numBatches ⊆ seenBatchesUnion workers →
      checkMissingBatches numBatches (seenBatchesUnion workers) =
        .error (Finset.Icc 1 numBatches \ seenBatchesUnion workers) ∧
      (Finset.Icc 1 numBatches \ seenBatchesUnion workers).Nonempty) ∧
    (Finset.Icc 1 numBatches ⊆ seenBatchesUnion workers →
      checkMissingBatches numBatches (seenBatchesUnion workers) = .ok ()) := by
  constructor
  · intro hsub
    have hne : (Finset.Icc 1 numBatches \ seenBatchesUnion workers).Nonempty :=
      Finset.sdiff_nonempty.mpr hsub
    refine ⟨?_, hne⟩
    simp only [checkMissingBatches]
    rw [if_pos hpos, if_pos (Finset.card_pos.mpr hne)]
  · intro hsub
    have h0 : Finset.Icc 1 numBatches \ seenBatchesUnion workers = ∅ :=
      Finset.sdiff_eq_empty_iff_subset.mpr hsub
    simp only [checkMissingBatches]
    rw [if_pos hpos, h0]
    simp

/-- Witness for C7: two batches, one worker that saw only batch 1 — the
check fails naming batch 2; a worker set covering both batches passes. -/
theorem run_parallel_missing_batches_witness :
    (checkMissingBatches 2 (seenBatchesUnion [{1}]) =
        .error (Finset.Icc 1 2 \ seenBatchesUnion [{1}]) ∧
      (Finset.Icc 1 2 \ seenBatchesUnion [{1}]).Nonempty) ∧
    checkMissingBatches 2 (seenBatchesUnion [{1, 2}]) = .ok () :=
  ⟨(run_parallel_missing_batches 2 [{1}] (by decide)).1 (by decide),
   (run_parallel_missing_batches 2 [{1, 2}] (by decide)).2 (by decide)⟩

/-- C10: every `threads` value strictly below 2 makes `run_parallel`
raise `ValueError` before creating queues or processes; `threads ≥ 2`
passes the check. -/
theorem run_parallel_threads_check (threads : ℤ) (uw cc : Bool)
    (comp : Option String) :
    (threads < 2 →
      runParallelInit threads uw cc comp = .error "'threads' must be >= 2") ∧
    (2 ≤ threads → (runParallelInit threads uw cc comp).isOk = true) := by
  constructor
  · intro h
    simp only [runParallelInit]
    rw [if_pos h]
  · intro h
    simp only [runParallelInit]
    rw [if_neg (by omega)]
    rfl

/-- Witness for C10 at `threads = 1` (rejected) and `threads = 2`
(accepted). -/
theorem run_parallel_threads_check_witness :
    runParallelInit 1 true true none = .error "'threads' must be >= 2" ∧
    (runParallelInit 2 true true none).isOk = true :=
  ⟨(run_parallel_threads_check 1 true true none).1 (by norm_num),
   (run_parallel_threads_check 2 true true none).2 (by norm_num)⟩

end Atropos

